import Mathlib

/-!
Verification of the core of `tcp_utp_bechmark.py` (a UDP-vs-TCP
per-transaction echo benchmark): the echo servers, the two measurement
loops, the statistics aggregator `summarize`, and the orchestration in
`main`, shallowly embedded in Lean.

Modelling conventions:
* Python floats are idealized as exact rationals (`ℚ`); `math.sqrt`
  (used by `statistics.pstdev`) is idealized as `Rat.sqrt`, the exact
  rational square root on perfect squares.  None of the proved
  statements depends on the rounding of the square root.
* Byte strings are `List Nat` (opaque byte sequences).
* The ambient system (the monotonic clock `time.perf_counter` and the
  network's behaviour at each blocking receive) is a `NetEnv`
  parameter; a run of a measurement loop is a function of it.
* Exceptions are `Except`: a Python function that raises is a function
  returning `.error e`.
* The sequential orchestration of `main` and the sleeps it performs are
  embedded as an event trace (`main_trace`): the list order is the
  temporal order of the run.
-/

/- ------------------------------------------------------------------
Statistics aggregator (source: `summarize`, lines 136-140, and the
`statistics` library functions it calls: `mean`, `median`, `pstdev`).
------------------------------------------------------------------ -/

/-- Model of `statistics.mean`: arithmetic mean, `sum / len`.
(The Python function raises on an empty list; the model returns `0`
there, a case no verified statement relies on.) -/
def mean (l : List ℚ) : ℚ := l.sum / l.length

/-- Model of `statistics.median`: sort the data; for odd length take the
middle element, for even length average the two middle elements.
Python's `sorted` (a stable sort) is modelled by `List.insertionSort`,
which produces the same sorted list on a total order. -/
def median (l : List ℚ) : ℚ :=
  let s := List.insertionSort (· ≤ ·) l
  let n := l.length
  if n % 2 = 1 then s.getD (n / 2) 0
  else (s.getD (n / 2 - 1) 0 + s.getD (n / 2) 0) / 2

/-- Model of `statistics.pvariance`: population variance with divisor
`N`, `sum ((x - mean)^2) / len`. -/
def pvariance (l : List ℚ) : ℚ := (l.map (fun x => (x - mean l) ^ 2)).sum / l.length

/-- Model of `statistics.pstdev`: square root of the population
variance.  `math.sqrt` is idealized as `Rat.sqrt` (exact on perfect
squares, which is the only case the verified statements evaluate). -/
def pstdev (l : List ℚ) : ℚ := Rat.sqrt (pvariance l)

/- ------------------------------------------------------------------
Model of CPython's float formatting with format spec `.6e`, used by the
f-string in `summarize` (line 140).  The value is idealized as an exact
rational; the mantissa is the round-half-even 7-digit scientific
rendering, the exponent carries an explicit sign and at least two
digits, exactly as CPython prints it.
------------------------------------------------------------------ -/

/-- The decimal digit character for `n % 10`. -/
def digitChar (n : Nat) : Char :=
  match n % 10 with
  | 0 => '0' | 1 => '1' | 2 => '2' | 3 => '3' | 4 => '4'
  | 5 => '5' | 6 => '6' | 7 => '7' | 8 => '8' | _ => '9'

/-- Decimal digit characters of `n`, most significant first; `fuel`
bounds the recursion (callers pass `n + 1`, always sufficient since the
argument shrinks by a factor of ten each step). -/
def natCharsAux : Nat → Nat → List Char
  | 0, _ => []
  | fuel + 1, n => if n < 10 then [digitChar n] else natCharsAux fuel (n / 10) ++ [digitChar n]

/-- Decimal digit characters of `n`, most significant first. -/
def natChars (n : Nat) : List Char := natCharsAux (n + 1) n

/-- Decimal string of a natural number (model of Python `str` /
f-string interpolation of an `int`). -/
def natStr (n : Nat) : String := String.mk (natChars n)

/-- Left-pad a digit list with `'0'` to length at least two (CPython
prints exponents with at least two digits). -/
def pad2 (l : List Char) : List Char := List.replicate (2 - l.length) '0' ++ l

/-- Exponent field of `.6e` formatting: explicit sign, then at least
two digits. -/
def expChars (e : ℤ) : List Char := (if e < 0 then '-' else '+') :: pad2 (natChars e.natAbs)

/-- Number of decimal digits of `n`. -/
def digitsLen (n : Nat) : Nat := (natChars n).length

/-- Floor of the base-10 logarithm of the positive rational `p / d`,
computed from digit counts plus one comparison. -/
def qLog10 (p d : Nat) : ℤ :=
  let e0 : ℤ := (digitsLen p : ℤ) - (digitsLen d : ℤ)
  if p * 10 ^ (-e0).toNat < d * 10 ^ e0.toNat then e0 - 1 else e0

/-- Round-half-even of the fraction `a / b` (banker's rounding, as used
by CPython's float-to-decimal conversion). -/
def rheNatDiv (a b : Nat) : Nat :=
  let q := a / b
  let r := a % b
  if 2 * r < b then q else if b < 2 * r then q + 1 else if q % 2 = 0 then q else q + 1

/-- The 7-digit mantissa and the exponent of the `.6e` rendering of the
positive rational `p / d`: the mantissa is `p / d / 10 ^ e` scaled to
`[10^6, 10^7)` and rounded half-even, with the exponent bumped when
rounding overflows to `10^7`. -/
def sciDigits (p d : Nat) : Nat × ℤ :=
  let e := qLog10 p d
  let a := p * 10 ^ ((6 : ℤ) - e).toNat
  let b := d * 10 ^ (e - 6).toNat
  let m := rheNatDiv a b
  if m = 10 ^ 7 then (10 ^ 6, e + 1) else (m, e)

/-- Mantissa characters `d.dddddd` of the 7-digit number `m`. -/
def mantChars (m : Nat) : List Char :=
  [digitChar (m / 10 ^ 6), '.', digitChar (m / 10 ^ 5), digitChar (m / 10 ^ 4),
   digitChar (m / 10 ^ 3), digitChar (m / 10 ^ 2), digitChar (m / 10), digitChar m]

/-- Model of CPython `format(x, '.6e')` on the idealized rational value:
optional minus sign, 7-digit round-half-even mantissa `d.dddddd`, the
letter `e`, a signed exponent of at least two digits. -/
def fmtE6 (q : ℚ) : String :=
  if q = 0 then String.mk (mantChars 0 ++ 'e' :: expChars 0)
  else
    let me := sciDigits q.num.natAbs q.den
    let sign : List Char := if q < 0 then ['-'] else []
    String.mk (sign ++ mantChars me.1 ++ 'e' :: expChars me.2)

/-- Syntactic well-formedness of a (sign-stripped) scientific-notation
rendering: one digit, a dot, six digits, `e`, a sign, at least two
digits.  Used only to state format properties; independent of `fmtE6`. -/
def isSciE6Core (l : List Char) : Bool :=
  match l with
  | a :: dot :: b1 :: b2 :: b3 :: b4 :: b5 :: b6 :: ech :: sg :: rest =>
    a.isDigit && (dot == '.') && b1.isDigit && b2.isDigit && b3.isDigit && b4.isDigit
      && b5.isDigit && b6.isDigit && (ech == 'e') && (sg == '+' || sg == '-')
      && decide (2 ≤ rest.length) && rest.all Char.isDigit
  | _ => false

/-- Syntactic well-formedness of a scientific-notation rendering,
allowing a leading minus sign. -/
def isSciE6 (s : String) : Bool :=
  match s.data with
  | [] => false
  | c :: rest => if c == '-' then isSciE6Core rest else isSciE6Core (c :: rest)

/-- The summary line builder (source lines 136-140):
`f"\x7bname\x7d: mean=\x7bmean:.6e\x7ds, median=\x7bmed:.6e\x7ds, std=\x7bstdev:.6e\x7ds, n=\x7blen(arr)\x7d"`. -/
def summarize (name : String) (arr : List ℚ) : String :=
  name ++ ": mean=" ++ fmtE6 (mean arr) ++ "s, median=" ++ fmtE6 (median arr)
    ++ "s, std=" ++ fmtE6 (pstdev arr) ++ "s, n=" ++ natStr arr.length

/- ------------------------------------------------------------------
Echo servers (source: `tcp_transaction_server`, lines 44-67, and
`udp_echo_server`, lines 70-80).
------------------------------------------------------------------ -/

/-- What one accepted stream connection presents to the server: either
the bytes `recv` returned (possibly zero bytes when the peer closed
without sending), or a `ConnectionError` raised mid-read/write. -/
inductive ConnEvent
  | recvd (data : List Nat)
  | connReset
deriving DecidableEq

/-- The Python exceptions the server model distinguishes. -/
inductive PyExc
  | connectionError
deriving DecidableEq

/-- Body of one iteration of the accept loop of
`tcp_transaction_server` (lines 58-65), inside its `try`: read once;
if the data is non-empty, echo exactly those bytes (`some data`),
otherwise close without a response (`none`); a reset raises. -/
def tcp_conn_handle : ConnEvent → Except PyExc (Option (List Nat))
  | .recvd data => .ok (if data = [] then none else some data)
  | .connReset => .error .connectionError

/-- The response the server is observed to send for one connection:
the echoed bytes, or nothing (zero-byte read, or caught error). -/
def tcp_server_responses (events : List ConnEvent) : List (Option (List Nat)) :=
  events.map fun ev =>
    match tcp_conn_handle ev with
    | .ok r => r
    | .error _ => none

/-- The accept loop of `tcp_transaction_server` (lines 57-67), run over
a finite prefix of its (conceptually infinite) connection stream: each
connection is handled by `tcp_conn_handle`; a raised `ConnectionError`
is caught and the loop continues (`except ConnectionError: continue`);
an uncaught exception would surface as `.error`. -/
def tcp_transaction_server : List ConnEvent → Except PyExc (List (Option (List Nat)))
  | [] => .ok []
  | ev :: rest =>
    match tcp_conn_handle ev with
    | .ok resp =>
      match tcp_transaction_server rest with
      | .ok resps => .ok (resp :: resps)
      | .error e => .error e
    | .error .connectionError =>
      match tcp_transaction_server rest with
      | .ok resps => .ok (none :: resps)
      | .error e => .error e

/-- Body of one iteration of `udp_echo_server` (lines 78-80): receive a
datagram and its sender address; if the datagram is non-empty, send the
identical bytes back to that address, otherwise send nothing. -/
def udp_echo_server_step {α : Type} (data : List Nat) (addr : α) : Option (α × List Nat) :=
  if data = [] then none else some (addr, data)

/- ------------------------------------------------------------------
Measurement clients (source: `measure_udp_transactions`, lines 86-103,
and `measure_tcp_transactions`, lines 106-130).
------------------------------------------------------------------ -/

/-- Client-side error surfaced by a blocking call: the 2-second socket
timeout expiring (`socket.timeout`). -/
inductive NetError
  | timeout
deriving DecidableEq

/-- The ambient system a measurement loop runs against: `clock k` is
the value of the `k`-th `perf_counter()` call (transaction `i` performs
calls `2*i` and `2*i + 1`); `timeoutAt i` says whether a blocking call
of transaction `i` exceeds the socket timeout and raises; `recvData i`
is the byte string the receive call of transaction `i` returns when it
does return. -/
structure NetEnv where
  clock : Nat → ℚ
  timeoutAt : Nat → Bool
  recvData : Nat → List Nat

/-- The UDP measurement loop (lines 96-102) from transaction index `i`,
with `n` transactions left: `t0 = perf_counter()`; send the payload;
block on `recvfrom` (raising `socket.timeout` if the bound is
exceeded, which propagates and discards the partial list); bind the
received bytes (they are never inspected); append
`perf_counter() - t0`; sleep `PACE`; continue. -/
def udpMeasureFrom (env : NetEnv) (payload : List Nat) : Nat → Nat → Except NetError (List ℚ)
  | _, 0 => .ok []
  | i, n + 1 =>
    let t0 := env.clock (2 * i)
    if env.timeoutAt i then .error .timeout
    else
      let _data := env.recvData i
      let dt := env.clock (2 * i + 1) - t0
      match udpMeasureFrom env payload (i + 1) n with
      | .ok rest => .ok (dt :: rest)
      | .error e => .error e

/-- Model of `measure_udp_transactions` (lines 86-103): one socket for
the whole run, `n` paced transactions, returning the duration list in
transaction order, or propagating the first unhandled timeout. -/
def measure_udp_transactions (env : NetEnv) (payload : List Nat) (n : Nat) :
    Except NetError (List ℚ) :=
  udpMeasureFrom env payload 0 n

/-- The TCP measurement loop (lines 116-129) from transaction index `i`:
`t0 = perf_counter()`; open a fresh connection, send the payload, read
the echo once (any blocking call exceeding the bound raises and
propagates), close; append `perf_counter() - t0`; sleep `PACE`. -/
def tcpMeasureFrom (env : NetEnv) (payload : List Nat) : Nat → Nat → Except NetError (List ℚ)
  | _, 0 => .ok []
  | i, n + 1 =>
    let t0 := env.clock (2 * i)
    if env.timeoutAt i then .error .timeout
    else
      let _data := env.recvData i
      let dt := env.clock (2 * i + 1) - t0
      match tcpMeasureFrom env payload (i + 1) n with
      | .ok rest => .ok (dt :: rest)
      | .error e => .error e

/-- Model of `measure_tcp_transactions` (lines 106-130): `n` paced
connect/send/recv/close transactions, returning the duration list in
transaction order, or propagating the first unhandled timeout. -/
def measure_tcp_transactions (env : NetEnv) (payload : List Nat) (n : Nat) :
    Except NetError (List ℚ) :=
  tcpMeasureFrom env payload 0 n

/- ------------------------------------------------------------------
Harness constants and orchestration (source: module constants, lines
30-38, and `main`, lines 164-191).
------------------------------------------------------------------ -/

/-- `PACE = 0.001` seconds between transactions (line 37). -/
def PACE : ℚ := 1 / 1000

/-- `TIMEOUT = 2.0` seconds socket timeout (line 38). -/
def TIMEOUT : ℚ := 2

/-- The fixed readiness delay `time.sleep(0.3)` of `main` (line 180). -/
def READY_DELAY : ℚ := 3 / 10

/-- The payload built by `main` (line 172): `b"A" * args.payload`. -/
def mkPayload (size : Nat) : List Nat := List.replicate size 65

/-- The two protocols of the benchmark. -/
inductive Proto
  | tcp
  | udp
deriving DecidableEq

/-- Observable events of one run of `main`, in temporal order: server
thread starts, the readiness sleep, one event per completed
transaction, the pacing sleeps, the two summary prints, the plot. -/
inductive Ev
  | startServer (p : Proto)
  | sleepReady (d : ℚ)
  | tx (p : Proto) (i : Nat)
  | sleepPace (d : ℚ)
  | printSummary (p : Proto)
  | plot
deriving DecidableEq

/-- The event trace of one measurement loop with `n` transactions
(lines 96-102 / 116-129): transaction `i`, then the pacing sleep. -/
def clientTrace (p : Proto) (n : Nat) : List Ev :=
  (List.range n).flatMap fun i => [Ev.tx p i, Ev.sleepPace PACE]

/-- The event trace of `main` (lines 176-191): start the TCP then the
UDP server thread, sleep the readiness delay, run the whole TCP client,
then the whole UDP client, print the TCP then the UDP summary line,
then render the plots. -/
def main_trace (n : Nat) : List Ev :=
  Ev.startServer Proto.tcp :: Ev.startServer Proto.udp :: Ev.sleepReady READY_DELAY ::
    (clientTrace Proto.tcp n ++ clientTrace Proto.udp n
      ++ [Ev.printSummary Proto.tcp, Ev.printSummary Proto.udp, Ev.plot])

/-- The environment a UDP client sees against a loopback
`udp_echo_server` with no loss: the receive of transaction `i` raises
the timeout exactly when the server sent no reply to the client's
datagram, and otherwise returns the reply bytes. -/
def udpLoopbackEnv (clock : Nat → ℚ) (payload : List Nat) : NetEnv where
  clock := clock
  timeoutAt := fun _ => (udp_echo_server_step payload (0 : Nat)).isNone
  recvData := fun _ => ((udp_echo_server_step payload (0 : Nat)).map Prod.snd).getD []

/- ------------------------------------------------------------------
Named environments used by concrete witnesses.
------------------------------------------------------------------ -/

/-- An environment whose clock ticks one second per `perf_counter`
call, with no timeouts and empty receive payloads. -/
def idClockEnv : NetEnv :=
  { clock := fun k => (k : ℚ), timeoutAt := fun _ => false, recvData := fun _ => [] }

/-- An environment whose second transaction (index 1) times out. -/
def timeoutAt1Env : NetEnv :=
  { clock := fun k => (k : ℚ), timeoutAt := fun i => i == 1, recvData := fun _ => [] }

/- ------------------------------------------------------------------
Helper lemmas.
------------------------------------------------------------------ -/

theorem udpMeasureFrom_ok (env : NetEnv) (payload : List Nat) (n : Nat) :
    ∀ i, (∀ j, i ≤ j → j < i + n → env.timeoutAt j = false) →
      udpMeasureFrom env payload i n =
        .ok (List.ofFn fun j : Fin n =>
          env.clock (2 * (i + j) + 1) - env.clock (2 * (i + j))) := by
  induction n with
  | zero => intro i _; simp [udpMeasureFrom]
  | succ n ih =>
    intro i h
    have h0 : env.timeoutAt i = false := h i le_rfl (by omega)
    have hrec := ih (i + 1) (fun j hj1 hj2 => h j (by omega) (by omega))
    simp only [udpMeasureFrom, h0, Bool.false_eq_true, if_false, hrec]
    rw [List.ofFn_succ]
    congr 1
    congr 1
    congr 1
    funext j
    simp only [Fin.val_succ]
    have hidx : i + 1 + (j : Nat) = i + ((j : Nat) + 1) := by omega
    rw [hidx]

theorem tcpMeasureFrom_ok (env : NetEnv) (payload : List Nat) (n : Nat) :
    ∀ i, (∀ j, i ≤ j → j < i + n → env.timeoutAt j = false) →
      tcpMeasureFrom env payload i n =
        .ok (List.ofFn fun j : Fin n =>
          env.clock (2 * (i + j) + 1) - env.clock (2 * (i + j))) := by
  induction n with
  | zero => intro i _; simp [tcpMeasureFrom]
  | succ n ih =>
    intro i h
    have h0 : env.timeoutAt i = false := h i le_rfl (by omega)
    have hrec := ih (i + 1) (fun j hj1 hj2 => h j (by omega) (by omega))
    simp only [tcpMeasureFrom, h0, Bool.false_eq_true, if_false, hrec]
    rw [List.ofFn_succ]
    congr 1
    congr 1
    congr 1
    funext j
    simp only [Fin.val_succ]
    have hidx : i + 1 + (j : Nat) = i + ((j : Nat) + 1) := by omega
    rw [hidx]

theorem udpMeasureFrom_err (env : NetEnv) (payload : List Nat) (n : Nat) :
    ∀ i j, i ≤ j → j < i + n → (∀ k, i ≤ k → k < j → env.timeoutAt k = false) →
      env.timeoutAt j = true →
      udpMeasureFrom env payload i n = .error .timeout := by
  induction n with
  | zero => intro i j _ _ _ _; omega
  | succ n ih =>
    intro i j hij hjn hfirst ht
    by_cases hcase : i = j
    · subst hcase
      simp [udpMeasureFrom, ht]
    · have h0 : env.timeoutAt i = false := hfirst i le_rfl (by omega)
      have hrec := ih (i + 1) j (by omega) (by omega) (fun k hk1 hk2 => hfirst k (by omega) hk2) ht
      simp [udpMeasureFrom, h0, hrec]

theorem tcpMeasureFrom_err (env : NetEnv) (payload : List Nat) (n : Nat) :
    ∀ i j, i ≤ j → j < i + n → (∀ k, i ≤ k → k < j → env.timeoutAt k = false) →
      env.timeoutAt j = true →
      tcpMeasureFrom env payload i n = .error .timeout := by
  induction n with
  | zero => intro i j _ _ _ _; omega
  | succ n ih =>
    intro i j hij hjn hfirst ht
    by_cases hcase : i = j
    · subst hcase
      simp [tcpMeasureFrom, ht]
    · have h0 : env.timeoutAt i = false := hfirst i le_rfl (by omega)
      have hrec := ih (i + 1) j (by omega) (by omega) (fun k hk1 hk2 => hfirst k (by omega) hk2) ht
      simp [tcpMeasureFrom, h0, hrec]

/- ------------------------------------------------------------------
Claim theorems.
------------------------------------------------------------------ -/

/-- C1: for every repetition count `N ≥ 1`, a successful run of
`measure_tcp_transactions` and `measure_udp_transactions` (every
send/receive completes without error, i.e. no transaction times out)
returns a duration sequence of length exactly `N` for each protocol;
entry `j` is the duration of transaction `j` (appended in transaction
order), and every entry is non-negative because `perf_counter` is
monotone. -/
theorem measure_success_yields_n_nonneg_durations (env : NetEnv) (payload : List Nat)
    (n : Nat) (_hn : 1 ≤ n)
    (hclock : ∀ k, env.clock k ≤ env.clock (k + 1))
    (hok : ∀ i, i < n → env.timeoutAt i = false) :
    measure_tcp_transactions env payload n =
        .ok (List.ofFn fun j : Fin n => env.clock (2 * j + 1) - env.clock (2 * j)) ∧
    measure_udp_transactions env payload n =
        .ok (List.ofFn fun j : Fin n => env.clock (2 * j + 1) - env.clock (2 * j)) ∧
    (List.ofFn fun j : Fin n => env.clock (2 * j + 1) - env.clock (2 * j)).length = n ∧
    ∀ d ∈ (List.ofFn fun j : Fin n => env.clock (2 * j + 1) - env.clock (2 * j)), 0 ≤ d := by
  have hok' : ∀ j, 0 ≤ j → j < 0 + n → env.timeoutAt j = false := by
    intro j _ hj
    exact hok j (by omega)
  have htcp := tcpMeasureFrom_ok env payload n 0 hok'
  have hudp := udpMeasureFrom_ok env payload n 0 hok'
  simp only [Nat.zero_add] at htcp hudp
  refine ⟨htcp, hudp, List.length_ofFn _, ?_⟩
  intro d hd
  rw [List.mem_ofFn] at hd
  obtain ⟨j, rfl⟩ := hd
  dsimp only
  have := hclock (2 * (j : Nat))
  linarith

/-- Witness for C1 at a concrete environment (unit clock ticks, no
timeouts), payload of 32 bytes, `N = 2`. -/
theorem measure_success_yields_n_nonneg_durations_witness :
    measure_tcp_transactions idClockEnv (mkPayload 32) 2 =
      .ok (List.ofFn fun j : Fin 2 =>
        idClockEnv.clock (2 * j + 1) - idClockEnv.clock (2 * j)) :=
  (measure_success_yields_n_nonneg_durations idClockEnv (mkPayload 32) 2 (by norm_num)
    (fun k => by simp [idClockEnv])
    (fun i _ => rfl)).1

/-- C6: if the receive of transaction `j` exceeds the 2-second timeout
(and the transactions before `j` complete), neither measurement loop
contains the error: the run produces no duration list at all — the
timeout propagates out as an unhandled exception (`.error .timeout`),
so no partial sequence is returned. -/
theorem measure_timeout_propagates_unhandled (env : NetEnv) (payload : List Nat)
    (n j : Nat) (hj : j < n)
    (hfirst : ∀ i, i < j → env.timeoutAt i = false)
    (ht : env.timeoutAt j = true) :
    measure_tcp_transactions env payload n = .error .timeout ∧
    measure_udp_transactions env payload n = .error .timeout := by
  constructor
  · exact tcpMeasureFrom_err env payload n 0 j (by omega) (by omega)
      (fun k _ hk => hfirst k hk) ht
  · exact udpMeasureFrom_err env payload n 0 j (by omega) (by omega)
      (fun k _ hk => hfirst k hk) ht

/-- Witness for C6: a run of three transactions whose second
transaction (index 1) times out. -/
theorem measure_timeout_propagates_unhandled_witness :
    measure_tcp_transactions timeoutAt1Env (mkPayload 32) 3 = .error .timeout ∧
    measure_udp_transactions timeoutAt1Env (mkPayload 32) 3 = .error .timeout :=
  measure_timeout_propagates_unhandled timeoutAt1Env (mkPayload 32) 3 1 (by norm_num)
    (fun i hi => by
      have hi0 : i = 0 := by omega
      rw [hi0]
      rfl)
    rfl

/-- C9 (implicit): the clients never inspect the echoed bytes.  The
result of either measurement loop is unchanged when every received byte
string is replaced by any other one, and even when every received byte
string differs from the payload sent, a run with no timeout still
yields the full duration sequence. -/
theorem measure_never_inspects_echoed_bytes (env : NetEnv) (payload : List Nat) (n : Nat)
    (d d' : Nat → List Nat) (_hdiff : ∀ i, d i ≠ payload)
    (hok : ∀ i, i < n → env.timeoutAt i = false) :
    measure_tcp_transactions { env with recvData := d } payload n =
      measure_tcp_transactions { env with recvData := d' } payload n ∧
    measure_udp_transactions { env with recvData := d } payload n =
      measure_udp_transactions { env with recvData := d' } payload n ∧
    measure_tcp_transactions { env with recvData := d } payload n =
      .ok (List.ofFn fun j : Fin n => env.clock (2 * j + 1) - env.clock (2 * j)) ∧
    measure_udp_transactions { env with recvData := d } payload n =
      .ok (List.ofFn fun j : Fin n => env.clock (2 * j + 1) - env.clock (2 * j)) := by
  have hok1 : ∀ jj, 0 ≤ jj → jj < 0 + n → ({ env with recvData := d } : NetEnv).timeoutAt jj = false :=
    fun jj _ h2 => hok jj (by omega)
  have hok2 : ∀ jj, 0 ≤ jj → jj < 0 + n → ({ env with recvData := d' } : NetEnv).timeoutAt jj = false :=
    fun jj _ h2 => hok jj (by omega)
  have htcp1 := tcpMeasureFrom_ok { env with recvData := d } payload n 0 hok1
  have htcp2 := tcpMeasureFrom_ok { env with recvData := d' } payload n 0 hok2
  have hudp1 := udpMeasureFrom_ok { env with recvData := d } payload n 0 hok1
  have hudp2 := udpMeasureFrom_ok { env with recvData := d' } payload n 0 hok2
  simp only [Nat.zero_add] at htcp1 htcp2 hudp1 hudp2
  exact ⟨htcp1.trans htcp2.symm, hudp1.trans hudp2.symm, htcp1, hudp1⟩

/-- Witness for C9: received bytes `[0]` (differing from the 32-byte
payload) versus empty received bytes leave the two-transaction run's
output unchanged. -/
theorem measure_never_inspects_echoed_bytes_witness :
    measure_udp_transactions { idClockEnv with recvData := fun _ => [0] } (mkPayload 32) 2 =
      measure_udp_transactions { idClockEnv with recvData := fun _ => [] } (mkPayload 32) 2 :=
  (measure_never_inspects_echoed_bytes idClockEnv (mkPayload 32) 2
    (fun _ => [0]) (fun _ => []) (fun i => by simp [mkPayload])
    (fun i _ => rfl)).2.1

/-- C10 (implicit): `udp_echo_server` never replies to an empty
datagram, so a run configured with payload size 0 (payload `b"A" * 0`,
the empty byte string) sends datagrams that are never echoed, and
against a loss-free loopback server the datagram client's first receive
blocks until the 2-second timeout raises, aborting the run. -/
theorem empty_payload_udp_run_times_out (clockF : Nat → ℚ) (n : Nat) (_hn : 1 ≤ n)
    (addr : Nat) :
    mkPayload 0 = [] ∧
    udp_echo_server_step (mkPayload 0) addr = none ∧
    TIMEOUT = 2 ∧
    measure_udp_transactions (udpLoopbackEnv clockF (mkPayload 0)) (mkPayload 0) n =
      .error .timeout := by
  refine ⟨rfl, rfl, rfl, ?_⟩
  exact udpMeasureFrom_err _ _ n 0 0 le_rfl (by omega) (fun k hk1 hk2 => by omega) rfl

/-- Witness for C10: the single-transaction run with payload size 0. -/
theorem empty_payload_udp_run_times_out_witness :
    mkPayload 0 = [] ∧
    udp_echo_server_step (mkPayload 0) (0 : Nat) = none ∧
    TIMEOUT = 2 ∧
    measure_udp_transactions (udpLoopbackEnv (fun k => (k : ℚ)) (mkPayload 0)) (mkPayload 0) 1 =
      .error .timeout :=
  empty_payload_udp_run_times_out (fun k => (k : ℚ)) 1 (by norm_num) 0

theorem insertionSort_eq_of_perm {l l' : List ℚ} (hp : l.Perm l') :
    List.insertionSort (· ≤ ·) l = List.insertionSort (· ≤ ·) l' :=
  List.eq_of_perm_of_sorted
    ((List.perm_insertionSort _ l).trans (hp.trans (List.perm_insertionSort _ l').symm))
    (List.sorted_insertionSort _ l) (List.sorted_insertionSort _ l')

/-- C2: on a single-element sequence `[x]` the aggregator reports
mean `x`, median `x`, population standard deviation `0`, and count `1`;
in particular a run with repeat count 1 reports `std == 0`. -/
theorem aggregator_singleton (x : ℚ) :
    mean [x] = x ∧ median [x] = x ∧ pstdev [x] = 0 ∧ ([x] : List ℚ).length = 1 := by
  refine ⟨?_, ?_, ?_, rfl⟩
  · simp [mean]
  · simp [median, List.insertionSort, List.orderedInsert]
  · have h : pvariance [x] = 0 := by simp [pvariance, mean]
    rw [pstdev, h]
    rfl

/-- C3: the aggregator is invariant under permutation of its non-empty
input (same mean, median, population standard deviation, count, and
hence the same summary line), and it is a deterministic pure function:
applying it twice to the same sequence yields identical output. -/
theorem aggregator_perm_invariant_deterministic (l l' : List ℚ) (_h : l ≠ [])
    (hp : l.Perm l') :
    mean l = mean l' ∧ median l = median l' ∧ pstdev l = pstdev l' ∧
    l.length = l'.length ∧
    (∀ name, summarize name l = summarize name l') ∧
    (∀ name, summarize name l = summarize name l) := by
  have hlen := hp.length_eq
  have hmean : mean l = mean l' := by rw [mean, mean, hp.sum_eq, hlen]
  have hsort := insertionSort_eq_of_perm hp
  have hmed : median l = median l' := by
    simp only [median]
    rw [hsort, hlen]
  have hvar : pvariance l = pvariance l' := by
    rw [pvariance, pvariance, hlen, hmean]
    congr 1
    exact (hp.map _).sum_eq
  have hstd : pstdev l = pstdev l' := by rw [pstdev, pstdev, hvar]
  refine ⟨hmean, hmed, hstd, hlen, ?_, fun _ => rfl⟩
  intro name
  rw [summarize, summarize, hmean, hmed, hstd, hlen]

/-- Witness for C3: swapping the two elements of `[1, 2]` leaves the
mean unchanged. -/
theorem aggregator_perm_invariant_deterministic_witness :
    mean [(1 : ℚ), 2] = mean [2, 1] :=
  (aggregator_perm_invariant_deterministic [1, 2] [2, 1] (by simp)
    (List.Perm.swap 2 1 [])).1

/-- C4: both echo servers echo verbatim.  For a non-empty received byte
string the stream server's per-connection handler replies with exactly
the bytes it read, the datagram server replies with exactly the
received datagram to the sender's address, and against a loss-free
loopback datagram server the bytes the client's receive returns are
exactly the payload it sent. -/
theorem servers_echo_verbatim (data : List Nat) (addr : Nat) (h : data ≠ []) :
    tcp_conn_handle (ConnEvent.recvd data) = .ok (some data) ∧
    udp_echo_server_step data addr = some (addr, data) ∧
    ∀ (clockF : Nat → ℚ) (i : Nat), (udpLoopbackEnv clockF data).recvData i = data := by
  refine ⟨?_, ?_, ?_⟩
  · simp [tcp_conn_handle, h]
  · simp [udp_echo_server_step, h]
  · intro clockF i
    simp [udpLoopbackEnv, udp_echo_server_step, h]

/-- Witness for C4: the two-byte payload `[65, 66]`. -/
theorem servers_echo_verbatim_witness :
    tcp_conn_handle (ConnEvent.recvd [65, 66]) = .ok (some [65, 66]) ∧
    udp_echo_server_step [65, 66] (0 : Nat) = some (0, [65, 66]) :=
  ⟨(servers_echo_verbatim [65, 66] 0 (by simp)).1,
   (servers_echo_verbatim [65, 66] 0 (by simp)).2.1⟩

theorem tcp_server_never_crashes (events : List ConnEvent) :
    tcp_transaction_server events = .ok (tcp_server_responses events) := by
  induction events with
  | nil => rfl
  | cons ev rest ih =>
    cases ev with
    | recvd data =>
      simp [tcp_transaction_server, tcp_conn_handle, tcp_server_responses, ih]
    | connReset =>
      simp [tcp_transaction_server, tcp_conn_handle, tcp_server_responses, ih]

/-- C5: the stream server's accept loop is never terminated by a
zero-byte connection or an error-raising connection: over any finite
prefix of the connection stream the loop completes normally, produces
one response slot per connection (so it always continues to the next
connection), and a zero-byte read produces no response. -/
theorem tcp_server_zero_byte_no_response_loop_continues (events : List ConnEvent) :
    tcp_transaction_server events = .ok (tcp_server_responses events) ∧
    (tcp_server_responses events).length = events.length ∧
    ∀ k (hk : k < events.length), events[k] = ConnEvent.recvd [] →
      (tcp_server_responses events)[k]? = some none := by
  refine ⟨tcp_server_never_crashes events, by simp [tcp_server_responses], ?_⟩
  intro k hk hzero
  have h1 : (tcp_server_responses events)[k]? =
      some (match tcp_conn_handle events[k] with | .ok r => r | .error _ => none) := by
    simp [tcp_server_responses, List.getElem?_eq_getElem hk]
  rw [hzero] at h1
  simpa [tcp_conn_handle] using h1

/-- Witness for C5: a connection stream with an echoing connection, a
zero-byte connection, and a reset connection. -/
theorem tcp_server_zero_byte_no_response_loop_continues_witness :
    tcp_transaction_server [ConnEvent.recvd [65], ConnEvent.recvd [], ConnEvent.connReset] =
      .ok (tcp_server_responses
        [ConnEvent.recvd [65], ConnEvent.recvd [], ConnEvent.connReset]) ∧
    (tcp_server_responses
        [ConnEvent.recvd [65], ConnEvent.recvd [], ConnEvent.connReset])[1]? = some none :=
  ⟨(tcp_server_zero_byte_no_response_loop_continues _).1,
   (tcp_server_zero_byte_no_response_loop_continues _).2.2 1 (by norm_num) rfl⟩

theorem clientTrace_length (p : Proto) (n : Nat) : (clientTrace p n).length = 2 * n := by
  induction n with
  | zero => rfl
  | succ n ih =>
    have h : clientTrace p (n + 1) = clientTrace p n ++ [Ev.tx p n, Ev.sleepPace PACE] := by
      simp [clientTrace, List.range_succ]
    rw [h, List.length_append, ih]
    simp
    omega

theorem clientTrace_getElem (p : Proto) (n k : Nat) :
    (clientTrace p n)[k]? =
      if k < 2 * n then some (if k % 2 = 0 then Ev.tx p (k / 2) else Ev.sleepPace PACE)
      else none := by
  induction n with
  | zero => simp [clientTrace]
  | succ n ih =>
    have h : clientTrace p (n + 1) = clientTrace p n ++ [Ev.tx p n, Ev.sleepPace PACE] := by
      simp [clientTrace, List.range_succ]
    rw [h, List.getElem?_append]
    rw [clientTrace_length]
    by_cases hk : k < 2 * n
    · rw [if_pos hk, ih, if_pos hk, if_pos (show k < 2 * (n + 1) by omega)]
    · rw [if_neg hk]
      by_cases h0 : k = 2 * n
      · have h1 : k - 2 * n = 0 := by omega
        rw [h1]
        rw [if_pos (by omega : k < 2 * (n + 1)), if_pos (by omega : k % 2 = 0)]
        have h2 : k / 2 = n := by omega
        rw [h2]
        rfl
      · by_cases h3 : k = 2 * n + 1
        · have h1 : k - 2 * n = 1 := by omega
          rw [h1]
          rw [if_pos (by omega : k < 2 * (n + 1)), if_neg (by omega : ¬ k % 2 = 0)]
          rfl
        · have h1 : ([Ev.tx p n, Ev.sleepPace PACE] : List Ev).length ≤ k - 2 * n := by
            simp
            omega
          rw [List.getElem?_eq_none h1, if_neg (by omega : ¬ k < 2 * (n + 1))]

theorem main_trace_getElem (n k : Nat) :
    (main_trace n)[k]? =
      if k = 0 then some (Ev.startServer Proto.tcp)
      else if k = 1 then some (Ev.startServer Proto.udp)
      else if k = 2 then some (Ev.sleepReady READY_DELAY)
      else if k < 3 + 2 * n then
        some (if (k - 3) % 2 = 0 then Ev.tx Proto.tcp ((k - 3) / 2) else Ev.sleepPace PACE)
      else if k < 3 + 4 * n then
        some (if (k - (3 + 2 * n)) % 2 = 0 then Ev.tx Proto.udp ((k - (3 + 2 * n)) / 2)
          else Ev.sleepPace PACE)
      else if k = 3 + 4 * n then some (Ev.printSummary Proto.tcp)
      else if k = 4 + 4 * n then some (Ev.printSummary Proto.udp)
      else if k = 5 + 4 * n then some Ev.plot
      else none := by
  rcases Nat.lt_or_ge k 3 with hk3 | hk3
  · interval_cases k <;> simp [main_trace]
  · obtain ⟨j, rfl⟩ : ∃ j, k = j + 3 := ⟨k - 3, by omega⟩
    conv_lhs => rw [main_trace, show j + 3 = (j + 2) + 1 from rfl,
      List.getElem?_cons_succ, show j + 2 = (j + 1) + 1 from rfl,
      List.getElem?_cons_succ, List.getElem?_cons_succ]
    rw [List.getElem?_append, List.getElem?_append]
    rw [List.length_append, clientTrace_length, clientTrace_length]
    rw [if_neg (show ¬(j + 3 = 0) by omega), if_neg (show ¬(j + 3 = 1) by omega),
      if_neg (show ¬(j + 3 = 2) by omega)]
    by_cases hj1 : j < 2 * n
    · rw [if_pos (show j < 2 * n + 2 * n by omega), if_pos hj1, clientTrace_getElem,
        if_pos hj1, if_pos (show j + 3 < 3 + 2 * n by omega)]
      have h4 : j + 3 - 3 = j := by omega
      rw [h4]
    · by_cases hj2 : j < 2 * n + 2 * n
      · rw [if_pos hj2, if_neg hj1, clientTrace_getElem,
          if_pos (show j - 2 * n < 2 * n by omega),
          if_neg (show ¬(j + 3 < 3 + 2 * n) by omega),
          if_pos (show j + 3 < 3 + 4 * n by omega)]
        have h4 : j + 3 - (3 + 2 * n) = j - 2 * n := by omega
        rw [h4]
      · rw [if_neg hj2, if_neg (show ¬(j + 3 < 3 + 2 * n) by omega),
          if_neg (show ¬(j + 3 < 3 + 4 * n) by omega)]
        by_cases hm0 : j = 2 * n + 2 * n
        · have h4 : j - (2 * n + 2 * n) = 0 := by omega
          rw [h4, if_pos (show j + 3 = 3 + 4 * n by omega)]
          rfl
        · by_cases hm1 : j = 2 * n + 2 * n + 1
          · have h4 : j - (2 * n + 2 * n) = 1 := by omega
            rw [h4, if_neg (show ¬(j + 3 = 3 + 4 * n) by omega),
              if_pos (show j + 3 = 4 + 4 * n by omega)]
            rfl
          · by_cases hm2 : j = 2 * n + 2 * n + 2
            · have h4 : j - (2 * n + 2 * n) = 2 := by omega
              rw [h4, if_neg (show ¬(j + 3 = 3 + 4 * n) by omega),
                if_neg (show ¬(j + 3 = 4 + 4 * n) by omega),
                if_pos (show j + 3 = 5 + 4 * n by omega)]
              rfl
            · rw [List.getElem?_eq_none (show
                  ([Ev.printSummary Proto.tcp, Ev.printSummary Proto.udp, Ev.plot] :
                    List Ev).length ≤ j - (2 * n + 2 * n) by simp; omega),
                if_neg (show ¬(j + 3 = 3 + 4 * n) by omega),
                if_neg (show ¬(j + 3 = 4 + 4 * n) by omega),
                if_neg (show ¬(j + 3 = 5 + 4 * n) by omega)]

theorem main_trace_tx_lower {n k : Nat} {p : Proto} {i : Nat}
    (h : (main_trace n)[k]? = some (Ev.tx p i)) : 3 ≤ k := by
  rw [main_trace_getElem] at h
  split_ifs at h <;> simp_all <;> omega

theorem main_trace_tx_tcp_range {n k i : Nat}
    (h : (main_trace n)[k]? = some (Ev.tx Proto.tcp i)) : k < 3 + 2 * n := by
  rw [main_trace_getElem] at h
  split_ifs at h <;> simp_all

theorem main_trace_tx_udp_range {n k i : Nat}
    (h : (main_trace n)[k]? = some (Ev.tx Proto.udp i)) : 3 + 2 * n ≤ k := by
  rw [main_trace_getElem] at h
  split_ifs at h <;> simp_all

/-- C8: in every run, `main` starts both servers, then waits the fixed
readiness delay, and every transaction happens only after that; every
TCP transaction strictly precedes every UDP transaction (the loops
never overlap in time); and within each loop transaction `i` occupies
trace slot `i`, immediately followed by the pacing sleep, so
transaction `i + 1` starts only after transaction `i` completes and the
pacing delay elapses. -/
theorem main_starts_servers_then_sequential_clients (n : Nat) :
    (main_trace n)[0]? = some (Ev.startServer Proto.tcp) ∧
    (main_trace n)[1]? = some (Ev.startServer Proto.udp) ∧
    (main_trace n)[2]? = some (Ev.sleepReady READY_DELAY) ∧
    (∀ (k : Nat) (p : Proto) (i : Nat), (main_trace n)[k]? = some (Ev.tx p i) → 3 ≤ k) ∧
    (∀ (k1 k2 i j : Nat), (main_trace n)[k1]? = some (Ev.tx Proto.tcp i) →
      (main_trace n)[k2]? = some (Ev.tx Proto.udp j) → k1 < k2) ∧
    (∀ i, i < n → (main_trace n)[3 + 2 * i]? = some (Ev.tx Proto.tcp i) ∧
      (main_trace n)[3 + 2 * i + 1]? = some (Ev.sleepPace PACE)) ∧
    (∀ i, i < n → (main_trace n)[3 + 2 * n + 2 * i]? = some (Ev.tx Proto.udp i) ∧
      (main_trace n)[3 + 2 * n + 2 * i + 1]? = some (Ev.sleepPace PACE)) := by
  refine ⟨by simp [main_trace], by simp [main_trace], by simp [main_trace], ?_, ?_, ?_, ?_⟩
  · intro k p i h
    exact main_trace_tx_lower h
  · intro k1 k2 i j h1 h2
    have ha := main_trace_tx_tcp_range h1
    have hb := main_trace_tx_udp_range h2
    omega
  · intro i hi
    constructor
    · rw [main_trace_getElem,
        if_neg (show ¬(3 + 2 * i = 0) by omega), if_neg (show ¬(3 + 2 * i = 1) by omega),
        if_neg (show ¬(3 + 2 * i = 2) by omega),
        if_pos (show 3 + 2 * i < 3 + 2 * n by omega),
        if_pos (show (3 + 2 * i - 3) % 2 = 0 by omega)]
      have h4 : (3 + 2 * i - 3) / 2 = i := by omega
      rw [h4]
    · rw [main_trace_getElem,
        if_neg (show ¬(3 + 2 * i + 1 = 0) by omega),
        if_neg (show ¬(3 + 2 * i + 1 = 1) by omega),
        if_neg (show ¬(3 + 2 * i + 1 = 2) by omega),
        if_pos (show 3 + 2 * i + 1 < 3 + 2 * n by omega),
        if_neg (show ¬((3 + 2 * i + 1 - 3) % 2 = 0) by omega)]
  · intro i hi
    constructor
    · rw [main_trace_getElem,
        if_neg (show ¬(3 + 2 * n + 2 * i = 0) by omega),
        if_neg (show ¬(3 + 2 * n + 2 * i = 1) by omega),
        if_neg (show ¬(3 + 2 * n + 2 * i = 2) by omega),
        if_neg (show ¬(3 + 2 * n + 2 * i < 3 + 2 * n) by omega),
        if_pos (show 3 + 2 * n + 2 * i < 3 + 4 * n by omega),
        if_pos (show (3 + 2 * n + 2 * i - (3 + 2 * n)) % 2 = 0 by omega)]
      have h4 : (3 + 2 * n + 2 * i - (3 + 2 * n)) / 2 = i := by omega
      rw [h4]
    · rw [main_trace_getElem,
        if_neg (show ¬(3 + 2 * n + 2 * i + 1 = 0) by omega),
        if_neg (show ¬(3 + 2 * n + 2 * i + 1 = 1) by omega),
        if_neg (show ¬(3 + 2 * n + 2 * i + 1 = 2) by omega),
        if_neg (show ¬(3 + 2 * n + 2 * i + 1 < 3 + 2 * n) by omega),
        if_pos (show 3 + 2 * n + 2 * i + 1 < 3 + 4 * n by omega),
        if_neg (show ¬((3 + 2 * n + 2 * i + 1 - (3 + 2 * n)) % 2 = 0) by omega)]

/-- Witness for C8 at `n = 1`: the TCP transaction (slot 3) precedes
the UDP transaction (slot 5). -/
theorem main_starts_servers_then_sequential_clients_witness :
    (main_trace 1)[0]? = some (Ev.startServer Proto.tcp) ∧ (3 : Nat) ≤ 3 ∧ 3 < 5 :=
  ⟨(main_starts_servers_then_sequential_clients 1).1,
   (main_starts_servers_then_sequential_clients 1).2.2.2.1 3 Proto.tcp 0 rfl,
   (main_starts_servers_then_sequential_clients 1).2.2.2.2.1 3 5 0 0 rfl rfl⟩

theorem digitChar_isDigit (n : Nat) : (digitChar n).isDigit = true := by
  rw [digitChar]
  have h : n % 10 < 10 := Nat.mod_lt _ (by omega)
  set m := n % 10 with hm
  interval_cases m <;> rfl

theorem digitChar_not_dash (n : Nat) : (digitChar n == '-') = false := by
  rw [digitChar]
  have h : n % 10 < 10 := Nat.mod_lt _ (by omega)
  set m := n % 10 with hm
  interval_cases m <;> rfl

theorem natCharsAux_all_digit : ∀ (fuel n : Nat), (natCharsAux fuel n).all Char.isDigit = true
  | 0, _ => rfl
  | fuel + 1, n => by
    rw [natCharsAux]
    split
    · simp [digitChar_isDigit]
    · simp [List.all_append, natCharsAux_all_digit fuel (n / 10), digitChar_isDigit]

theorem natChars_all_digit (n : Nat) : (natChars n).all Char.isDigit = true :=
  natCharsAux_all_digit (n + 1) n

theorem two_le_pad2_length (l : List Char) : 2 ≤ (pad2 l).length := by
  simp [pad2]
  omega

theorem pad2_all_digit {l : List Char} (h : l.all Char.isDigit = true) :
    (pad2 l).all Char.isDigit = true := by
  simp only [pad2, List.all_append, h, Bool.and_true]
  induction (2 - l.length) with
  | zero => rfl
  | succ k ih => simp only [List.replicate_succ, List.all_cons, ih, Bool.and_true]; rfl

theorem isSciE6Core_mant_exp (m : Nat) (e : ℤ) :
    isSciE6Core (mantChars m ++ 'e' :: expChars e) = true := by
  rw [mantChars, expChars]
  simp only [List.cons_append, List.nil_append, isSciE6Core]
  simp only [Bool.and_eq_true, decide_eq_true_eq]
  refine ⟨⟨⟨⟨⟨⟨⟨⟨⟨⟨⟨?_, ?_⟩, ?_⟩, ?_⟩, ?_⟩, ?_⟩, ?_⟩, ?_⟩, ?_⟩, ?_⟩, ?_⟩, ?_⟩
  all_goals try exact digitChar_isDigit _
  · rfl
  · rfl
  · by_cases he : e < 0
    · simp [he]
    · simp [he]
  · exact two_le_pad2_length _
  · exact pad2_all_digit (natChars_all_digit _)

theorem isSciE6_mk_mant_exp (m : Nat) (e : ℤ) :
    isSciE6 (String.mk (mantChars m ++ 'e' :: expChars e)) = true := by
  rw [isSciE6]
  simp only [mantChars, List.cons_append]
  rw [if_neg (by simp [digitChar_not_dash])]
  have h := isSciE6Core_mant_exp m e
  simpa [mantChars, List.cons_append] using h

theorem isSciE6_mk_neg_mant_exp (m : Nat) (e : ℤ) :
    isSciE6 (String.mk ('-' :: (mantChars m ++ 'e' :: expChars e))) = true := by
  rw [isSciE6]
  dsimp only
  rw [if_pos (show ('-' == '-') = true from rfl)]
  exact isSciE6Core_mant_exp m e

theorem fmtE6_isSciE6 (q : ℚ) : isSciE6 (fmtE6 q) = true := by
  rw [fmtE6]
  split_ifs with h0 h1
  · exact isSciE6_mk_mant_exp 0 0
  · simp only [List.append_assoc, List.singleton_append]
    exact isSciE6_mk_neg_mant_exp _ _
  · simp only [List.nil_append]
    exact isSciE6_mk_mant_exp _ _

theorem main_trace_printSummary_range {n k : Nat} {p : Proto}
    (h : (main_trace n)[k]? = some (Ev.printSummary p)) : k < 5 + 4 * n := by
  rw [main_trace_getElem] at h
  split_ifs at h <;> simp_all

theorem main_trace_plot_position {n k : Nat}
    (h : (main_trace n)[k]? = some Ev.plot) : k = 5 + 4 * n := by
  rw [main_trace_getElem] at h
  split_ifs at h <;> simp_all

/-- C7 counterexample: at the one-element sequence `[1]` the summary
line the source emits has no space between each scientific-notation
value and the unit `s` (it reads `mean=1.000000e+00s, ...`), so it is
not of the claimed form `mean=<sci> s, ...` with a space before the
unit. -/
theorem summarize_spec_space_form_fails :
    summarize "TCP per-transaction" [1] =
      "TCP per-transaction: mean=1.000000e+00s, median=1.000000e+00s, std=0.000000e+00s, n=1" ∧
    summarize "TCP per-transaction" [1] ≠
      "TCP per-transaction: mean=1.000000e+00 s, median=1.000000e+00 s, std=0.000000e+00 s, n=1" := by
  have hm : mean [1] = 1 := by norm_num [mean]
  have hmed : median [(1 : ℚ)] = 1 := by
    norm_num [median, List.insertionSort, List.orderedInsert]
  have hv : pvariance [(1 : ℚ)] = 0 := by norm_num [pvariance, mean]
  have hs : pstdev [(1 : ℚ)] = 0 := by
    rw [pstdev, hv]
    rfl
  constructor
  · rw [summarize, hm, hmed, hs]
    decide
  · rw [summarize, hm, hmed, hs]
    decide

/-- C7 (amended): for every non-empty duration sequence and label, the
summary line emitted by `summarize` has exactly the form
`<Label>: mean=<sci>s, median=<sci>s, std=<sci>s, n=<count>` — each
scientific-notation value immediately followed by the unit `s`, with no
space — where `<count>` is the sequence length, and both summary lines
are printed before any visualization is rendered. -/
theorem summarize_format_and_print_order (name : String) (arr : List ℚ) (_h : arr ≠ [])
    (n : Nat) :
    (∃ s1 s2 s3, summarize name arr =
        name ++ ": mean=" ++ s1 ++ "s, median=" ++ s2 ++ "s, std=" ++ s3
          ++ "s, n=" ++ natStr arr.length ∧
        isSciE6 s1 = true ∧ isSciE6 s2 = true ∧ isSciE6 s3 = true) ∧
    (∀ (k1 k2 : Nat) (p : Proto), (main_trace n)[k1]? = some (Ev.printSummary p) →
      (main_trace n)[k2]? = some Ev.plot → k1 < k2) := by
  constructor
  · exact ⟨_, _, _, rfl, fmtE6_isSciE6 _, fmtE6_isSciE6 _, fmtE6_isSciE6 _⟩
  · intro k1 k2 p h1 h2
    have ha := main_trace_printSummary_range h1
    have hb := main_trace_plot_position h2
    omega

/-- Witness for the amended C7 at the one-element sequence `[1]`. -/
theorem summarize_format_and_print_order_witness :
    ∃ s1 s2 s3, summarize "UDP per-transaction" [1] =
      "UDP per-transaction" ++ ": mean=" ++ s1 ++ "s, median=" ++ s2 ++ "s, std=" ++ s3
        ++ "s, n=" ++ natStr ([(1 : ℚ)]).length ∧
      isSciE6 s1 = true ∧ isSciE6 s2 = true ∧ isSciE6 s3 = true :=
  (summarize_format_and_print_order "UDP per-transaction" [1] (by simp) 1).1
